import Mathlib

/-!
Verification of the swig job-queue core (glamboyosa/swig).

Shallow embedding of the dispatch and lifecycle engine of `swig.go`, the
batch-enqueue path of `drivers/pgx.go` / `drivers/sql.go`, and the worker
registry of `workers/workers.go`.  The jobs table is a `List Job`; server
time is a natural number of seconds; every SQL statement of the source is
translated into a pure function on the table.
-/

namespace Swig

/-- The `valid_status` check constraint of `swig_jobs`. -/
inductive Status where
  | pending
  | processing
  | completed
  | failed
  | scheduled
deriving DecidableEq

/-- One row of the `swig_jobs` table (schema created by `Start`).
`instance_id`, `worker_id` are UUID strings; timestamps are seconds. -/
structure Job where
  id : Nat
  kind : String
  queue : String
  payload : String
  status : Status
  priority : Int
  attempts : Nat
  maxAttempts : Nat
  createdAt : Nat
  scheduledFor : Nat
  instanceId : Option String
  workerId : Option String
  lockedAt : Option Nat
  lastError : Option String
  lastErrorAt : Option Nat
deriving DecidableEq

/-- The jobs table. -/
abbrev JobsTable := List Job

/-- The subquery `EXISTS (SELECT 1 FROM swig_jobs WHERE queue = 'priority'
AND status = 'pending' AND scheduled_for <= NOW())` of the untargeted
acquire statement in `processNextJob`. -/
def eligiblePriorityExists (db : JobsTable) (now : Nat) : Bool :=
  db.any fun j =>
    j.queue == "priority" && decide (j.status = Status.pending) &&
      decide (j.scheduledFor ≤ now)

/-- The WHERE predicate of the inner SELECT of the untargeted acquire
statement in `processNextJob`: `status = 'pending' AND scheduled_for <=
NOW() AND ((queue = 'priority' AND EXISTS(...)) OR (queue = $3 AND NOT
EXISTS(...)))`. -/
def claimEligible (db : JobsTable) (now : Nat) (q : String) (j : Job) : Bool :=
  decide (j.status = Status.pending) && decide (j.scheduledFor ≤ now) &&
    ((j.queue == "priority" && eligiblePriorityExists db now) ||
      (j.queue == q && !eligiblePriorityExists db now))

/-- Sort key of `ORDER BY queue = 'priority' DESC, priority DESC,
created_at`: smaller key sorts first. -/
def claimKey (j : Job) : Nat × Int × Nat :=
  (if j.queue == "priority" then 0 else 1, -j.priority, j.createdAt)

/-- Strict lexicographic comparison of claim sort keys. -/
def keyLt (a b : Nat × Int × Nat) : Bool :=
  decide (a.1 < b.1) ||
    (decide (a.1 = b.1) &&
      (decide (a.2.1 < b.2.1) ||
        (decide (a.2.1 = b.2.1) && decide (a.2.2 < b.2.2))))

/-- Row comparison: `beats a b` holds when row `a` sorts strictly before row `b` in the
claim ORDER BY. -/
def beats (a b : Job) : Bool :=
  keyLt (claimKey a) (claimKey b)

/-- The `LIMIT 1` pick over the ordered eligible set: the first row of the sort
order (ties broken by table position, which SQL leaves unspecified). -/
def pickBest : List Job → Option Job
  | [] => none
  | j :: rest =>
    match pickBest rest with
    | none => some j
    | some b => if beats b j then some b else some j

/-- The outer UPDATE of the acquire statement: `SET status = 'processing',
instance_id = $1, worker_id = $2, locked_at = NOW(), attempts = attempts
+ 1 WHERE id = (...)`. -/
def claimUpdate (iid wid : String) (now : Nat) (chosenId : Nat)
    (db : JobsTable) : JobsTable :=
  db.map fun j =>
    if j.id = chosenId then
      { j with
        status := Status.processing
        instanceId := some iid
        workerId := some wid
        lockedAt := some now
        attempts := j.attempts + 1 }
    else j

/-- The `RETURNING id, kind, payload` projection. -/
structure ClaimedRow where
  id : Nat
  kind : String
  payload : String
deriving DecidableEq

/-- The untargeted acquire statement of `processNextJob`
(`specificJobID == ""`): select the winner, update it, return
`{id, kind, payload}`; `none` models the no-rows outcome. -/
def acquireAnyJob (db : JobsTable) (now : Nat) (q iid wid : String) :
    Option (ClaimedRow × JobsTable) :=
  match pickBest (db.filter (claimEligible db now q)) with
  | none => none
  | some r => some (⟨r.id, r.kind, r.payload⟩, claimUpdate iid wid now r.id db)

/-- The targeted acquire statement of `processNextJob` (notification
path): `UPDATE ... WHERE id = $3 AND status = 'pending' AND
scheduled_for <= NOW()`. -/
def claimSpecificJob (db : JobsTable) (now : Nat) (iid wid : String)
    (jobId : Nat) : JobsTable :=
  db.map fun j =>
    if j.id = jobId ∧ j.status = Status.pending ∧ j.scheduledFor ≤ now then
      { j with
        status := Status.processing
        instanceId := some iid
        workerId := some wid
        lockedAt := some now
        attempts := j.attempts + 1 }
    else j

/-- The failure-outcome UPDATE of `processNextJob`: `SET status = CASE
WHEN attempts >= max_attempts THEN 'failed' ELSE 'pending' END,
last_error = $2, last_error_at = NOW(), instance_id = NULL, worker_id =
NULL, locked_at = NULL WHERE id = $1`. -/
def recordFailure (db : JobsTable) (jobId : Nat) (msg : String) (now : Nat) :
    JobsTable :=
  db.map fun j =>
    if j.id = jobId then
      { j with
        status := if j.maxAttempts ≤ j.attempts then Status.failed
          else Status.pending
        lastError := some msg
        lastErrorAt := some now
        instanceId := none
        workerId := none
        lockedAt := none }
    else j

/-- The success-outcome UPDATE of `processNextJob`: `SET status =
'completed', instance_id = NULL, worker_id = NULL, locked_at = NULL
WHERE id = $1`. -/
def recordSuccess (db : JobsTable) (jobId : Nat) : JobsTable :=
  db.map fun j =>
    if j.id = jobId then
      { j with
        status := Status.completed
        instanceId := none
        workerId := none
        lockedAt := none }
    else j

/-- The WHERE predicate of `retryFailedJobs`: `status = 'failed' AND
attempts < max_attempts AND (instance_id IS NULL OR locked_at < NOW() -
interval '5 minutes') AND (last_error IS NULL OR last_error_at < NOW() -
interval '1 second' * pow(2, attempts))`.  A NULL timestamp makes the SQL
comparison unknown, hence not satisfied. -/
def retryEligible (now : Nat) (j : Job) : Bool :=
  decide (j.status = Status.failed) && decide (j.attempts < j.maxAttempts) &&
    (decide (j.instanceId = none) ||
      (match j.lockedAt with
        | some t => decide (t + 300 < now)
        | none => false)) &&
    (decide (j.lastError = none) ||
      (match j.lastErrorAt with
        | some t => decide (t + 2 ^ j.attempts < now)
        | none => false))

/-- The leader recovery tick (`retryFailedJobs`): requeue matching rows
with `status = 'pending'`, cleared ownership, and `scheduled_for = NOW()
+ interval '1 second' * pow(2, attempts)` when `attempts > 0`, else
`NOW()`. -/
def retryFailedJobs (db : JobsTable) (now : Nat) : JobsTable :=
  db.map fun j =>
    if retryEligible now j then
      { j with
        status := Status.pending
        instanceId := none
        workerId := none
        lockedAt := none
        scheduledFor := if 0 < j.attempts then now + 2 ^ j.attempts else now }
    else j

/-- The shutdown cleanup UPDATE of `cleanupInstanceJobs`: for rows with
`instance_id = $1`, `SET status = CASE WHEN attempts >= max_attempts THEN
'failed' ELSE 'pending' END`, clear ownership, and set `last_error =
'Job failed due to instance shutdown'` in the failed case. -/
def cleanupInstanceJobs (db : JobsTable) (iid : String) : JobsTable :=
  db.map fun j =>
    if j.instanceId = some iid then
      { j with
        status := if j.maxAttempts ≤ j.attempts then Status.failed
          else Status.pending
        instanceId := none
        workerId := none
        lockedAt := none
        lastError := if j.maxAttempts ≤ j.attempts then
          some "Job failed due to instance shutdown" else j.lastError }
    else j

/-- The INSERT of `AddJob` / `AddJobWithTx`: only `kind, queue, payload,
priority, scheduled_for, status = 'pending'` are supplied; `attempts`,
`max_attempts`, `created_at` and the ownership columns take their
schema defaults (`0`, `3`, `NOW()`, NULL). -/
def enqueueJob (db : JobsTable) (newId : Nat) (kind queue payload : String)
    (priority : Int) (runAt now : Nat) : JobsTable :=
  db ++ [{ id := newId, kind := kind, queue := queue, payload := payload
           status := Status.pending, priority := priority, attempts := 0
           maxAttempts := 3, createdAt := now, scheduledFor := runAt
           instanceId := none, workerId := none, lockedAt := none
           lastError := none, lastErrorAt := none }]

/-- Outcome of running a claimed job's handler in the worker loop:
`json.Unmarshal` can fail, and `Process` either errors or succeeds. -/
inductive HandlerResult where
  | unmarshalFailed (msg : String)
  | processFailed (msg : String)
  | processOk
deriving DecidableEq

/-- A registry lookup table for the worker loop: `kind ↦ behaviour on a
payload`, `none` when no worker is registered for the kind. -/
abbrev HandlerTable := String → Option (String → HandlerResult)

/-- One iteration of `processNextJob` past the notification machinery:
the untargeted claim followed by handler lookup, payload deserialization,
execution, and outcome recording.  The first component is the error the
call returns to `startWorker` (`none` when it returns nil); the second is
the resulting jobs table. -/
def processNextJobModel (handlers : HandlerTable) (db : JobsTable)
    (now : Nat) (q iid wid : String) : Option String × JobsTable :=
  match acquireAnyJob db now q iid wid with
  | none => (none, db)
  | some (row, db1) =>
    match handlers row.kind with
    | none => (some ("no worker registered for job type: " ++ row.kind), db1)
    | some behave =>
      match behave row.payload with
      | HandlerResult.unmarshalFailed msg =>
        (some ("failed to unmarshal job payload: " ++ msg), db1)
      | HandlerResult.processFailed msg =>
        (none, recordFailure db1 row.id msg now)
      | HandlerResult.processOk =>
        (none, recordSuccess db1 row.id)

/-- The state transitions the core performs on the jobs table. -/
inductive Step : JobsTable → JobsTable → Prop where
  | enqueue (db : JobsTable) (newId : Nat) (kind queue payload : String)
      (priority : Int) (runAt now : Nat)
      (hfresh : ∀ j ∈ db, j.id ≠ newId) :
      Step db (enqueueJob db newId kind queue payload priority runAt now)
  | claimAny (db : JobsTable) (now : Nat) (q iid wid : String)
      (row : ClaimedRow) (db' : JobsTable)
      (h : acquireAnyJob db now q iid wid = some (row, db')) :
      Step db db'
  | claimOne (db : JobsTable) (now : Nat) (iid wid : String) (jobId : Nat) :
      Step db (claimSpecificJob db now iid wid jobId)
  | success (db : JobsTable) (jobId : Nat) :
      Step db (recordSuccess db jobId)
  | failure (db : JobsTable) (jobId : Nat) (msg : String) (now : Nat) :
      Step db (recordFailure db jobId msg now)
  | retry (db : JobsTable) (now : Nat) :
      Step db (retryFailedJobs db now)
  | cleanup (db : JobsTable) (iid : String) :
      Step db (cleanupInstanceJobs db iid)

/-- Tables reachable from the empty table through core transitions. -/
inductive Reachable : JobsTable → Prop where
  | init : Reachable []
  | step {db db' : JobsTable} : Reachable db → Step db db' → Reachable db'

/-- C5's invariant: unique ids (the `id` column is the primary key, and
inserts generate fresh ids), every row has `attempts ≤ max_attempts`,
and every `pending` row still has an attempt left. -/
def AttemptsInv (db : JobsTable) : Prop :=
  (db.map Job.id).Nodup ∧
    ∀ j ∈ db, j.attempts ≤ j.maxAttempts ∧
      (j.status = Status.pending → j.attempts < j.maxAttempts)

/-- All three ownership columns are NULL. -/
def OwnershipClear (j : Job) : Prop :=
  j.instanceId = none ∧ j.workerId = none ∧ j.lockedAt = none

/-- C8's invariant (spec I2/P2 restricted to the claimed statuses): a
`pending`, `failed` or `completed` row has NULL `instance_id`,
`worker_id`, `locked_at`. -/
def OwnershipInv (db : JobsTable) : Prop :=
  ∀ j ∈ db,
    (j.status = Status.pending ∨ j.status = Status.failed ∨
      j.status = Status.completed) → OwnershipClear j

/-- A handler instance, as the map of its JSON-serializable fields. -/
abbrev HandlerFields := List (String × String)

/-- A caller-supplied worker value: `jobName = none` models a value that
does not implement `JobName() string`; `zeroShell` is the zero value of
its struct type. -/
structure RawWorker where
  jobName : Option String
  zeroShell : HandlerFields
deriving DecidableEq

/-- Model of `RegisterWorker` (workers/workers.go): reject a worker without
`JobName()`, otherwise `wr.workers[w.JobName()] = worker` — map
assignment keyed by the kind, last writer wins. -/
def registerWorker (reg : String → Option RawWorker) (w : RawWorker) :
    Except String (String → Option RawWorker) :=
  match w.jobName with
  | none => Except.error "worker must implement JobName() string"
  | some name => Except.ok fun k => if k = name then some w else reg k

/-- Modelled from the spec: `WorkerRegistry.GetWorker` is code of this
repository that is not under `src/` (only its callers in
`processNextJob` are).  Per the spec, "Lookup returns a fresh handler
instance (or a zero-value shell into which the payload JSON can be
deserialized)": lookup of a registered kind yields a fresh zero-value
shell of that kind's handler type. -/
def getWorker (reg : String → Option RawWorker) (kind : String) :
    Option HandlerFields :=
  (reg kind).map RawWorker.zeroShell

/-- One field assignment of `json.Unmarshal`: overwrite the field when
the destination has it, append it otherwise. -/
def setField (inst : HandlerFields) (kv : String × String) : HandlerFields :=
  if inst.any fun f => f.1 == kv.1 then
    inst.map fun f => if f.1 == kv.1 then (f.1, kv.2) else f
  else inst ++ [kv]

/-- Model of `json.Unmarshal(payload, worker)`: fields present in the payload
overwrite the destination's fields; absent fields keep the destination's
current values. -/
def unmarshalInto (inst : HandlerFields) (payload : HandlerFields) :
    HandlerFields :=
  payload.foldl setField inst

/-- The handler instance `processNextJob` executes for one claim:
`worker, ok := s.Workers.GetWorker(kind)` followed by
`json.Unmarshal(payload, worker)`. -/
def claimInstance (reg : String → Option RawWorker) (kind : String)
    (payload : HandlerFields) : Option HandlerFields :=
  (getWorker reg kind).map fun shell => unmarshalInto shell payload

/-- A sequence of claims processed one after the other against a fixed
registry (the registry is read-only during dispatch). -/
def runClaims (reg : String → Option RawWorker)
    (claims : List (String × HandlerFields)) : List (Option HandlerFields) :=
  claims.map fun c => claimInstance reg c.1 c.2

/-- A batch item's worker value: `jobName = none` models a value without
`JobName() string`; `marshal` is the result of `json.Marshal`. -/
structure BatchWorker where
  jobName : Option String
  marshal : Except String String

/-- The `JobOptions` of a batch item. -/
structure BatchJobOpts where
  queue : String
  priority : Int
  runAt : Nat
deriving DecidableEq

/-- One item of `AddJobsWithTx`'s `jobs` slice. -/
structure BatchJob where
  worker : BatchWorker
  opts : BatchJobOpts

/-- One VALUES tuple of the batch INSERT. -/
structure InsertValues where
  kind : String
  queue : String
  payload : String
  priority : Int
  scheduledFor : Nat
deriving DecidableEq

/-- The per-item loop of `AddJobsWithTx`: validate `JobName()`, serialize
the worker, and collect one VALUES tuple per item; the first failing item
aborts the whole call before any SQL is issued. -/
def buildBatchValues : List BatchJob → Except String (List InsertValues)
  | [] => Except.ok []
  | job :: rest =>
    match job.worker.jobName with
    | none => Except.error "worker must implement JobName() string"
    | some name =>
      match job.worker.marshal with
      | Except.error e => Except.error ("failed to serialize job args: " ++ e)
      | Except.ok payload =>
        match buildBatchValues rest with
        | Except.error e => Except.error e
        | Except.ok rows =>
          Except.ok ({ kind := name, queue := job.opts.queue
                       payload := payload, priority := job.opts.priority
                       scheduledFor := job.opts.runAt } :: rows)

/-- One inserted row of the batch INSERT: the tuple's columns plus the
schema defaults (`status = 'pending'`, `attempts = 0`, `max_attempts =
3`, `created_at = NOW()`, NULL ownership); the id is server-generated. -/
def mkRow (id0 now : Nat) (v : InsertValues) : Job :=
  { id := id0, kind := v.kind, queue := v.queue, payload := v.payload
    status := Status.pending, priority := v.priority, attempts := 0
    maxAttempts := 3, createdAt := now, scheduledFor := v.scheduledFor
    instanceId := none, workerId := none, lockedAt := none
    lastError := none, lastErrorAt := none }

/-- The rows created for the VALUES tuples, with consecutive generated
ids. -/
def insertRowsFrom (id0 now : Nat) : List InsertValues → List Job
  | [] => []
  | v :: rest => mkRow id0 now v :: insertRowsFrom (id0 + 1) now rest

/-- Execution of the single multi-VALUES INSERT: all tuples become rows
at once. -/
def insertBatchRows (db : JobsTable) (rows : List InsertValues)
    (firstId now : Nat) : JobsTable :=
  db ++ insertRowsFrom firstId now rows

/-- Model of `AddJobsWithTx` (drivers/pgx.go lines 150-205 and drivers/sql.go
lines 161-216, identical logic): an empty batch returns nil without
touching the database; an unusable transaction or any per-item
validation/serialization failure returns an error before the INSERT is
issued; otherwise a single statement inserts every row. -/
def addJobsWithTx (txValid : Bool) (db : JobsTable) (jobs : List BatchJob)
    (firstId now : Nat) : Except String JobsTable :=
  if jobs.length = 0 then Except.ok db
  else if !txValid then
    Except.error "invalid transaction for driver"
  else
    match buildBatchValues jobs with
    | Except.error e => Except.error e
    | Except.ok rows => Except.ok (insertBatchRows db rows firstId now)

/-- Result of a `Stop` call: either a Go runtime panic or a return value
together with the resulting jobs table and the `shutdown` channel state. -/
inductive StopResult where
  | panicked (msg : String)
  | returned (err : Option String) (db : JobsTable) (shutdownClosed : Bool)
deriving DecidableEq

/-- The cleanup under a caller context: `cleanupInstanceJobs` issues its UPDATE through `driver.Query(ctx,…)`;
when the context's deadline has already passed, database/sql and pgx
return the context error without executing the statement, so the table
is untouched. -/
def cleanupInstanceJobsCtx (ctxExpired : Bool) (db : JobsTable)
    (iid : String) : Except String JobsTable :=
  if ctxExpired then
    Except.error "failed to cleanup instance jobs: context deadline exceeded"
  else Except.ok (cleanupInstanceJobs db iid)

/-- Model of `Stop` (swig.go lines 272-332): it unconditionally closes the shared
`shutdown` channel — in Go, closing an already-closed channel panics —
then waits on the worker barrier against the context, and runs instance
cleanup.  `shutdownClosed` is the channel state before the call,
`workersDrained` whether `activeWorkers.Wait()` finishes before the
deadline, `ctxExpired` whether the caller's deadline has already passed.
When the barrier does not drain, the select fires on `ctx.Done()` (the
deadline is past by then), cleanup runs under the expired context and its
error is only logged; `Stop` returns the timeout error. -/
def stopModel (shutdownClosed workersDrained ctxExpired : Bool)
    (db : JobsTable) (iid : String) : StopResult :=
  if shutdownClosed then StopResult.panicked "close of closed channel"
  else if workersDrained then
    match cleanupInstanceJobsCtx ctxExpired db iid with
    | Except.error _ => StopResult.returned none db true
    | Except.ok db' => StopResult.returned none db' true
  else
    match cleanupInstanceJobsCtx true db iid with
    | Except.error _ =>
      StopResult.returned
        (some "shutdown timed out: context deadline exceeded") db true
    | Except.ok db' =>
      StopResult.returned
        (some "shutdown timed out: context deadline exceeded") db' true

/-- Witness for C1: a one-row table with a claimable pending job. -/
def witnessJob : Job :=
  { id := 1, kind := "send_email", queue := "default", payload := "\x7b\x7d"
    status := Status.pending, priority := 1, attempts := 0, maxAttempts := 3
    createdAt := 0, scheduledFor := 0, instanceId := none, workerId := none
    lockedAt := none, lastError := none, lastErrorAt := none }

/-- The row `witnessJob` as it stands right after being claimed at time 100 by
instance "i1" / worker "w1". -/
def claimedWitnessJob : Job :=
  { witnessJob with
    status := Status.processing
    instanceId := some "i1"
    workerId := some "w1"
    lockedAt := some 100
    attempts := 1 }

/-- A registry whose only worker handles kind "send_email" and always
fails with "boom". -/
def boomHandlers : HandlerTable :=
  fun k => if k = "send_email" then
    some fun _ => HandlerResult.processFailed "boom"
  else none

/-- A row stranded in 'processing' whose lock is far older than 5
minutes: its owner died without running shutdown cleanup. -/
def stuckProcessingJob : Job :=
  { id := 7, kind := "send_email", queue := "default", payload := "\x7b\x7d"
    status := Status.processing, priority := 1, attempts := 1
    maxAttempts := 3, createdAt := 0, scheduledFor := 0
    instanceId := some "dead-instance", workerId := some "w-dead"
    lockedAt := some 0, lastError := none, lastErrorAt := none }

/-- A worker prototype for registry witnesses. -/
def emailProto : RawWorker :=
  { jobName := some "send_email", zeroShell := [] }

/-- A registry holding only `emailProto`. -/
def emailRegistry : String → Option RawWorker :=
  fun k => if k = "send_email" then some emailProto else none

/-- A batch whose only item's worker does not implement `JobName()`. -/
def badBatch : List BatchJob :=
  [{ worker := { jobName := none, marshal := Except.ok "\x7b\x7d" }
     opts := { queue := "default", priority := 1, runAt := 0 } }]

/-- Propositional form of the `retryFailedJobs` WHERE predicate. -/
def RetryEligibleP (now : Nat) (j : Job) : Prop :=
  j.status = Status.failed ∧ j.attempts < j.maxAttempts ∧
    (j.instanceId = none ∨ ∃ t, j.lockedAt = some t ∧ t + 300 < now) ∧
    (j.lastError = none ∨ ∃ t, j.lastErrorAt = some t ∧ t + 2 ^ j.attempts < now)

/-- Propositional form of the EXISTS subquery. -/
def PriorityEligibleRow (db : JobsTable) (now : Nat) : Prop :=
  ∃ p ∈ db, p.queue = "priority" ∧ p.status = Status.pending ∧
    p.scheduledFor ≤ now

/-- Propositional form of the claim eligibility predicate. -/
def ClaimEligibleP (db : JobsTable) (now : Nat) (q : String) (j : Job) :
    Prop :=
  j.status = Status.pending ∧ j.scheduledFor ≤ now ∧
    ((j.queue = "priority" ∧ PriorityEligibleRow db now) ∨
      (j.queue = q ∧ ¬PriorityEligibleRow db now))

/-- Row `a` strictly precedes `b` in the claim order: it is in the priority
queue while `b` is not, or — with equal priority-queue membership — it
has strictly higher `priority`, or equal `priority` and strictly smaller
`created_at`. -/
def PrecedesInClaimOrder (a b : Job) : Prop :=
  (a.queue = "priority" ∧ b.queue ≠ "priority") ∨
    ((a.queue = "priority" ↔ b.queue = "priority") ∧ b.priority < a.priority) ∨
    ((a.queue = "priority" ↔ b.queue = "priority") ∧ a.priority = b.priority ∧
      a.createdAt < b.createdAt)

theorem eligiblePriorityExists_iff (db : JobsTable) (now : Nat) :
    eligiblePriorityExists db now = true ↔ PriorityEligibleRow db now := by
  simp [eligiblePriorityExists, PriorityEligibleRow, List.any_eq_true,
    and_assoc]

theorem eligiblePriorityExists_false_iff (db : JobsTable) (now : Nat) :
    eligiblePriorityExists db now = false ↔ ¬PriorityEligibleRow db now := by
  rw [← eligiblePriorityExists_iff]
  simp

theorem claimEligible_iff (db : JobsTable) (now : Nat) (q : String) (j : Job) :
    claimEligible db now q j = true ↔ ClaimEligibleP db now q j := by
  simp [claimEligible, ClaimEligibleP, eligiblePriorityExists_iff,
    eligiblePriorityExists_false_iff, and_assoc]

theorem beats_iff (a b : Job) :
    beats a b = true ↔ PrecedesInClaimOrder a b := by
  unfold beats keyLt claimKey PrecedesInClaimOrder
  by_cases ha : a.queue = "priority" <;> by_cases hb : b.queue = "priority" <;>
    simp [ha, hb] <;> constructor <;> intro h <;> omega

theorem keyLt_irrefl (a : Nat × Int × Nat) : keyLt a a = false := by
  unfold keyLt
  simp

theorem keyLt_asymm {a b : Nat × Int × Nat} (h : keyLt a b = true) :
    keyLt b a = false := by
  unfold keyLt at h ⊢
  simp only [Bool.or_eq_true, Bool.and_eq_true, decide_eq_true_eq] at h
  simp only [Bool.or_eq_false_iff, Bool.and_eq_false_iff,
    decide_eq_false_iff_not, not_lt]
  omega

theorem keyLt_neg_trans {a b c : Nat × Int × Nat} (hab : keyLt a b = false)
    (hbc : keyLt b c = false) : keyLt a c = false := by
  unfold keyLt at hab hbc ⊢
  simp only [Bool.or_eq_false_iff, Bool.and_eq_false_iff,
    decide_eq_false_iff_not, not_lt] at hab hbc ⊢
  omega

theorem beats_irrefl (a : Job) : beats a a = false :=
  keyLt_irrefl _

theorem beats_asymm {a b : Job} (h : beats a b = true) : beats b a = false :=
  keyLt_asymm h

theorem beats_neg_trans {a b c : Job} (hab : beats a b = false)
    (hbc : beats b c = false) : beats a c = false :=
  keyLt_neg_trans hab hbc

theorem pickBest_isSome (j : Job) (rest : List Job) :
    (pickBest (j :: rest)).isSome = true := by
  simp only [pickBest]
  cases pickBest rest with
  | none => rfl
  | some b => by_cases hb : beats b j = true <;> simp [hb]

theorem pickBest_mem {l : List Job} {r : Job} (h : pickBest l = some r) :
    r ∈ l := by
  induction l generalizing r with
  | nil => simp [pickBest] at h
  | cons j rest ih =>
    simp only [pickBest] at h
    cases hrest : pickBest rest with
    | none =>
      rw [hrest] at h
      injection h with h
      subst h
      exact List.mem_cons_self _ _
    | some b =>
      rw [hrest] at h
      by_cases hb : beats b j = true
      · simp only [hb, if_true] at h
        injection h with h
        subst h
        exact List.mem_cons_of_mem _ (ih hrest)
      · simp only [hb, if_false] at h
        injection h with h
        subst h
        exact List.mem_cons_self _ _

theorem pickBest_not_beaten {l : List Job} {r : Job} (h : pickBest l = some r) :
    ∀ x ∈ l, beats x r = false := by
  induction l generalizing r with
  | nil => simp [pickBest] at h
  | cons j rest ih =>
    intro x hx
    simp only [pickBest] at h
    cases hrest : pickBest rest with
    | none =>
      rw [hrest] at h
      injection h with h
      subst h
      rcases List.mem_cons.mp hx with rfl | hxr
      · exact beats_irrefl x
      · cases rest with
        | nil => simp at hxr
        | cons y ys =>
          have := pickBest_isSome y ys
          rw [hrest] at this
          simp at this
    | some b =>
      rw [hrest] at h
      by_cases hb : beats b j = true
      · simp only [hb, if_true] at h
        injection h with h
        subst h
        rcases List.mem_cons.mp hx with rfl | hxr
        · exact beats_asymm hb
        · exact ih hrest x hxr
      · simp only [hb, if_false] at h
        injection h with h
        subst h
        rcases List.mem_cons.mp hx with rfl | hxr
        · exact beats_irrefl x
        · have hxb := ih hrest x hxr
          have hb' : beats b j = false := by simpa using hb
          exact beats_neg_trans hxb hb'

theorem claimUpdate_length (iid wid : String) (now cid : Nat)
    (db : JobsTable) : (claimUpdate iid wid now cid db).length = db.length :=
  List.length_map _ _

theorem claimUpdate_getElem? (iid wid : String) (now cid : Nat)
    (db : JobsTable) (i : Nat) (h : i < db.length) :
    (claimUpdate iid wid now cid db)[i]? = some (
      if (db.get ⟨i, h⟩).id = cid then
        { db.get ⟨i, h⟩ with
          status := Status.processing
          instanceId := some iid
          workerId := some wid
          lockedAt := some now
          attempts := (db.get ⟨i, h⟩).attempts + 1 }
      else db.get ⟨i, h⟩) := by
  simp [claimUpdate, List.getElem?_map, List.getElem?_eq_getElem h]

/-- C1: For every untargeted claim by a worker bound to queue `Q`, the
claim selects only rows with status `pending` and `scheduled_for ≤ now()`
that are either in queue `priority` (when an eligible priority row
exists) or in queue `Q` (when no eligible priority row exists), ordered
by membership in the priority queue first, then `priority` descending,
then `created_at` ascending, taking one row; the update sets status to
`processing`, stamps `instance_id` and `worker_id`, sets `locked_at` to
`now()`, increments `attempts` by exactly one, and returns that row's
`id`, `kind`, and `payload`. -/
theorem untargeted_claim_spec (db : JobsTable) (now : Nat) (q iid wid : String)
    (row : ClaimedRow) (db' : JobsTable)
    (h : acquireAnyJob db now q iid wid = some (row, db')) :
    ∃ r ∈ db,
      r.status = Status.pending ∧ r.scheduledFor ≤ now ∧
      ((r.queue = "priority" ∧ PriorityEligibleRow db now) ∨
        (r.queue = q ∧ ¬PriorityEligibleRow db now)) ∧
      (∀ r2 ∈ db, ClaimEligibleP db now q r2 → ¬PrecedesInClaimOrder r2 r) ∧
      row = ⟨r.id, r.kind, r.payload⟩ ∧
      db'.length = db.length ∧
      (∀ i, (hi : i < db.length) → db'[i]? = some (
        if (db.get ⟨i, hi⟩).id = r.id then
          { db.get ⟨i, hi⟩ with
            status := Status.processing
            instanceId := some iid
            workerId := some wid
            lockedAt := some now
            attempts := (db.get ⟨i, hi⟩).attempts + 1 }
        else db.get ⟨i, hi⟩)) := by
  unfold acquireAnyJob at h
  cases hpick : pickBest (db.filter (claimEligible db now q)) with
  | none => rw [hpick] at h; cases h
  | some r =>
    rw [hpick] at h
    cases h
    have hrmem := pickBest_mem hpick
    have hrfil := List.mem_filter.mp hrmem
    have hrel := (claimEligible_iff db now q r).mp hrfil.2
    refine ⟨r, hrfil.1, hrel.1, hrel.2.1, hrel.2.2, ?_, rfl, ?_, ?_⟩
    · intro r2 hr2 hel2 hprec
      have hr2fil : r2 ∈ db.filter (claimEligible db now q) :=
        List.mem_filter.mpr ⟨hr2, (claimEligible_iff db now q r2).mpr hel2⟩
      have := pickBest_not_beaten hpick r2 hr2fil
      rw [← Bool.not_eq_true] at this
      exact this ((beats_iff r2 r).mpr hprec)
    · exact claimUpdate_length iid wid now r.id db
    · intro i hi
      exact claimUpdate_getElem? iid wid now r.id db i hi

theorem untargeted_claim_spec_witness :
    ∃ r ∈ [witnessJob],
      r.status = Status.pending ∧ r.scheduledFor ≤ 10 ∧
      ((r.queue = "priority" ∧ PriorityEligibleRow [witnessJob] 10) ∨
        (r.queue = "default" ∧ ¬PriorityEligibleRow [witnessJob] 10)) ∧
      (∀ r2 ∈ [witnessJob], ClaimEligibleP [witnessJob] 10 "default" r2 →
        ¬PrecedesInClaimOrder r2 r) ∧
      (⟨1, "send_email", "\x7b\x7d"⟩ : ClaimedRow) = ⟨r.id, r.kind, r.payload⟩ ∧
      (claimUpdate "inst" "w" 10 1 [witnessJob]).length = [witnessJob].length ∧
      (∀ i, (hi : i < [witnessJob].length) →
        (claimUpdate "inst" "w" 10 1 [witnessJob])[i]? = some (
        if ([witnessJob].get ⟨i, hi⟩).id = r.id then
          { [witnessJob].get ⟨i, hi⟩ with
            status := Status.processing
            instanceId := some "inst"
            workerId := some "w"
            lockedAt := some 10
            attempts := ([witnessJob].get ⟨i, hi⟩).attempts + 1 }
        else [witnessJob].get ⟨i, hi⟩)) :=
  untargeted_claim_spec [witnessJob] 10 "default" "inst" "w"
    ⟨1, "send_email", "\x7b\x7d"⟩ (claimUpdate "inst" "w" 10 1 [witnessJob]) rfl

theorem acquireAnyJob_elim {db : JobsTable} {now : Nat} {q iid wid : String}
    {row : ClaimedRow} {db' : JobsTable}
    (h : acquireAnyJob db now q iid wid = some (row, db')) :
    ∃ r, pickBest (db.filter (claimEligible db now q)) = some r ∧
      row = ⟨r.id, r.kind, r.payload⟩ ∧
      db' = claimUpdate iid wid now r.id db := by
  unfold acquireAnyJob at h
  cases hp : pickBest (db.filter (claimEligible db now q)) with
  | none => rw [hp] at h; cases h
  | some r =>
    rw [hp] at h
    injection h with h2
    exact ⟨r, rfl, (congrArg Prod.fst h2).symm, (congrArg Prod.snd h2).symm⟩

theorem eq_of_mem_of_id_eq {db : JobsTable} (hnd : (db.map Job.id).Nodup)
    {a b : Job} (ha : a ∈ db) (hb : b ∈ db) (hid : a.id = b.id) : a = b :=
  List.inj_on_of_nodup_map hnd ha hb hid

theorem map_preserves_ids (db : JobsTable) (f : Job → Job)
    (hf : ∀ j, (f j).id = j.id) :
    (db.map f).map Job.id = db.map Job.id := by
  rw [List.map_map]
  exact List.map_congr_left fun j _ => hf j

theorem attemptsInv_map {db : JobsTable} {f : Job → Job}
    (hid : ∀ j, (f j).id = j.id)
    (hrow : ∀ j ∈ db, j.attempts ≤ j.maxAttempts →
      (j.status = Status.pending → j.attempts < j.maxAttempts) →
      (f j).attempts ≤ (f j).maxAttempts ∧
        ((f j).status = Status.pending → (f j).attempts < (f j).maxAttempts))
    (hinv : AttemptsInv db) : AttemptsInv (db.map f) := by
  obtain ⟨hnd, hrows⟩ := hinv
  constructor
  · rw [map_preserves_ids db f hid]
    exact hnd
  · intro j' hj'
    obtain ⟨j, hj, rfl⟩ := List.mem_map.mp hj'
    exact hrow j hj (hrows j hj).1 (hrows j hj).2

theorem retryEligible_attempts_lt {now : Nat} {j : Job}
    (h : retryEligible now j = true) : j.attempts < j.maxAttempts := by
  unfold retryEligible at h
  simp only [Bool.and_eq_true, decide_eq_true_eq] at h
  exact h.1.1.2

theorem attemptsInv_step {db db' : JobsTable} (hs : Step db db')
    (hinv : AttemptsInv db) : AttemptsInv db' := by
  cases hs with
  | enqueue newId kind queue payload priority runAt now hfresh =>
    obtain ⟨hnd, hrows⟩ := hinv
    constructor
    · rw [enqueueJob, List.map_append]
      refine hnd.append (by simp) ?_
      intro x hx hx1
      simp only [List.map_cons, List.map_nil, List.mem_cons,
        List.not_mem_nil, or_false] at hx1
      obtain ⟨j, hj, rfl⟩ := List.mem_map.mp hx
      exact hfresh j hj hx1
    · intro j hj
      rw [enqueueJob] at hj
      rcases List.mem_append.mp hj with hj | hj
      · exact hrows j hj
      · simp only [List.mem_singleton] at hj
        subst hj
        exact ⟨by norm_num, fun _ => by norm_num⟩
  | claimAny now q iid wid row db2 h =>
    obtain ⟨r, hp, _, hdb'⟩ := acquireAnyJob_elim h
    subst hdb'
    have hrfil := List.mem_filter.mp (pickBest_mem hp)
    have hrpend : r.status = Status.pending :=
      ((claimEligible_iff db now q r).mp hrfil.2).1
    unfold claimUpdate
    refine attemptsInv_map (fun j => ?_) (fun j hj h1 h2 => ?_) hinv
    · dsimp only
      split <;> rfl
    · dsimp only
      split
      case isTrue hc =>
        have hjr : j = r := eq_of_mem_of_id_eq hinv.1 hj hrfil.1 hc
        subst hjr
        refine ⟨?_, fun habs => by cases habs⟩
        show j.attempts + 1 ≤ j.maxAttempts
        have := h2 hrpend
        omega
      case isFalse => exact ⟨h1, h2⟩
  | claimOne now iid wid jobId =>
    unfold claimSpecificJob
    refine attemptsInv_map (fun j => ?_) (fun j hj h1 h2 => ?_) hinv
    · dsimp only
      split <;> rfl
    · dsimp only
      split
      case isTrue hc =>
        refine ⟨?_, fun habs => by cases habs⟩
        show j.attempts + 1 ≤ j.maxAttempts
        have := h2 hc.2.1
        omega
      case isFalse => exact ⟨h1, h2⟩
  | success jobId =>
    unfold recordSuccess
    refine attemptsInv_map (fun j => ?_) (fun j hj h1 h2 => ?_) hinv
    · dsimp only
      split <;> rfl
    · dsimp only
      split
      · exact ⟨h1, fun habs => by cases habs⟩
      · exact ⟨h1, h2⟩
  | failure jobId msg now =>
    unfold recordFailure
    refine attemptsInv_map (fun j => ?_) (fun j hj h1 h2 => ?_) hinv
    · dsimp only
      split <;> rfl
    · dsimp only
      split
      case isTrue hc =>
        refine ⟨h1, fun hpend => ?_⟩
        show j.attempts < j.maxAttempts
        change (if j.maxAttempts ≤ j.attempts then Status.failed
          else Status.pending) = Status.pending at hpend
        split at hpend
        · cases hpend
        · omega
      case isFalse => exact ⟨h1, h2⟩
  | retry now =>
    unfold retryFailedJobs
    refine attemptsInv_map (fun j => ?_) (fun j hj h1 h2 => ?_) hinv
    · dsimp only
      split <;> rfl
    · dsimp only
      split
      case isTrue hc =>
        refine ⟨h1, fun _ => ?_⟩
        show j.attempts < j.maxAttempts
        exact retryEligible_attempts_lt hc
      case isFalse => exact ⟨h1, h2⟩
  | cleanup iid =>
    unfold cleanupInstanceJobs
    refine attemptsInv_map (fun j => ?_) (fun j hj h1 h2 => ?_) hinv
    · dsimp only
      split <;> rfl
    · dsimp only
      split
      case isTrue hc =>
        refine ⟨h1, fun hpend => ?_⟩
        show j.attempts < j.maxAttempts
        change (if j.maxAttempts ≤ j.attempts then Status.failed
          else Status.pending) = Status.pending at hpend
        split at hpend
        · cases hpend
        · omega
      case isFalse => exact ⟨h1, h2⟩

/-- C5: for every job row created through the enqueue operations
(`attempts` starts at 0, `max_attempts` defaults to 3) and modified only
by the claim, outcome-recording, leader-recovery, and shutdown-cleanup
updates, `attempts ≤ max_attempts` holds after every transition — every
transition that returns a row to `pending` requires
`attempts < max_attempts`, and a claim increments `attempts` by exactly
one on a `pending` row. -/
theorem attempts_le_max_attempts (db : JobsTable) (h : Reachable db) :
    ∀ j ∈ db, j.attempts ≤ j.maxAttempts := by
  have hinv : AttemptsInv db := by
    induction h with
    | init => exact ⟨by simp, by simp⟩
    | step hr hs ih => exact attemptsInv_step hs ih
  exact fun j hj => (hinv.2 j hj).1

theorem attempts_le_max_attempts_witness :
    witnessJob.attempts ≤ witnessJob.maxAttempts :=
  attempts_le_max_attempts
    (enqueueJob [] 1 "send_email" "default" "\x7b\x7d" 1 0 0)
    (Reachable.step Reachable.init
      (Step.enqueue [] 1 "send_email" "default" "\x7b\x7d" 1 0 0 (by simp)))
    witnessJob (by decide)

theorem ownershipInv_map {db : JobsTable} {f : Job → Job}
    (hrow : ∀ j ∈ db,
      (((j.status = Status.pending ∨ j.status = Status.failed ∨
          j.status = Status.completed) → OwnershipClear j)) →
      ((f j).status = Status.pending ∨ (f j).status = Status.failed ∨
        (f j).status = Status.completed) → OwnershipClear (f j))
    (hinv : OwnershipInv db) : OwnershipInv (db.map f) := by
  intro j' hj'
  obtain ⟨j, hj, rfl⟩ := List.mem_map.mp hj'
  exact hrow j hj (hinv j hj)

/-- C8: every state transition performed by the core preserves the
invariant that a row with status in `{pending, failed, completed}` has
null `instance_id`, `worker_id`, and `locked_at`: enqueue inserts rows
with these fields null, the success and failure outcome updates clear
them, shutdown cleanup clears them, and leader recovery clears them. -/
theorem ownership_null_preserved {db db' : JobsTable} (hs : Step db db')
    (hinv : OwnershipInv db) : OwnershipInv db' := by
  cases hs with
  | enqueue newId kind queue payload priority runAt now hfresh =>
    intro j hj
    rw [enqueueJob] at hj
    rcases List.mem_append.mp hj with hj | hj
    · exact hinv j hj
    · simp only [List.mem_singleton] at hj
      subst hj
      exact fun _ => ⟨rfl, rfl, rfl⟩
  | claimAny now q iid wid row db2 h =>
    obtain ⟨r, _, _, hdb'⟩ := acquireAnyJob_elim h
    subst hdb'
    unfold claimUpdate
    refine ownershipInv_map (fun j hj hcl => ?_) hinv
    dsimp only
    split
    · intro habs
      rcases habs with habs | habs | habs <;> cases habs
    · exact hcl
  | claimOne now iid wid jobId =>
    unfold claimSpecificJob
    refine ownershipInv_map (fun j hj hcl => ?_) hinv
    dsimp only
    split
    · intro habs
      rcases habs with habs | habs | habs <;> cases habs
    · exact hcl
  | success jobId =>
    unfold recordSuccess
    refine ownershipInv_map (fun j hj hcl => ?_) hinv
    dsimp only
    split
    · exact fun _ => ⟨rfl, rfl, rfl⟩
    · exact hcl
  | failure jobId msg now =>
    unfold recordFailure
    refine ownershipInv_map (fun j hj hcl => ?_) hinv
    dsimp only
    split
    · exact fun _ => ⟨rfl, rfl, rfl⟩
    · exact hcl
  | retry now =>
    unfold retryFailedJobs
    refine ownershipInv_map (fun j hj hcl => ?_) hinv
    dsimp only
    split
    · exact fun _ => ⟨rfl, rfl, rfl⟩
    · exact hcl
  | cleanup iid =>
    unfold cleanupInstanceJobs
    refine ownershipInv_map (fun j hj hcl => ?_) hinv
    dsimp only
    split
    · exact fun _ => ⟨rfl, rfl, rfl⟩
    · exact hcl

theorem ownership_null_preserved_witness :
    OwnershipInv (enqueueJob [] 2 "send_email" "default" "\x7b\x7d" 1 0 0) :=
  ownership_null_preserved
    (Step.enqueue [] 2 "send_email" "default" "\x7b\x7d" 1 0 0 (by simp))
    (fun j hj => by simp at hj)

theorem retryEligible_iff (now : Nat) (j : Job) :
    retryEligible now j = true ↔ RetryEligibleP now j := by
  unfold retryEligible RetryEligibleP
  cases hl : j.lockedAt <;> cases he : j.lastErrorAt <;>
    simp [hl, he, and_assoc]

/-- C4 counterexample: at time 100000 — the lock of `stuckProcessingJob`
aged far beyond 5 minutes — the leader recovery tick leaves the stranded
'processing' row untouched instead of returning it to 'pending': the
tick's WHERE clause requires `status = 'failed'`. -/
theorem retry_tick_ignores_stuck_processing :
    retryFailedJobs [stuckProcessingJob] 100000 = [stuckProcessingJob] ∧
    stuckProcessingJob.status = Status.processing ∧
    stuckProcessingJob.lockedAt = some 0 ∧ 0 + 300 < 100000 := by
  refine ⟨?_, rfl, rfl, by norm_num⟩
  simp [retryFailedJobs, retryEligible, stuckProcessingJob]

/-- C4 amended: the leader's recovery tick requeues exactly the eligible
'failed' rows (backoff elapsed, unowned or stale lock) back to 'pending'
with exponential-backoff scheduling; rows in any other status — in
particular rows stranded in 'processing' by a dead owner — are left
unchanged by the tick. -/
theorem retry_tick_spec (db : JobsTable) (now : Nat) (i : Nat)
    (hi : i < db.length) :
    ((db.get ⟨i, hi⟩).status ≠ Status.failed →
      (retryFailedJobs db now)[i]? = some (db.get ⟨i, hi⟩)) ∧
    (RetryEligibleP now (db.get ⟨i, hi⟩) →
      (retryFailedJobs db now)[i]? = some
        { db.get ⟨i, hi⟩ with
          status := Status.pending
          instanceId := none
          workerId := none
          lockedAt := none
          scheduledFor := if 0 < (db.get ⟨i, hi⟩).attempts then
            now + 2 ^ (db.get ⟨i, hi⟩).attempts else now }) := by
  constructor
  · intro hne
    cases hb : retryEligible now db[i] with
    | true => exact absurd ((retryEligible_iff _ _).mp hb).1 hne
    | false =>
      simp [retryFailedJobs, List.getElem?_map, List.getElem?_eq_getElem hi, hb]
  · intro hp
    have hb : retryEligible now db[i] = true :=
      (retryEligible_iff _ _).mpr hp
    simp [retryFailedJobs, List.getElem?_map, List.getElem?_eq_getElem hi, hb]

theorem retry_tick_spec_witness :
    (retryFailedJobs [stuckProcessingJob] 100000)[0]? =
      some ([stuckProcessingJob].get ⟨0, by norm_num⟩) :=
  (retry_tick_spec [stuckProcessingJob] 100000 0 (by norm_num)).1 (by decide)

/-- C2 counterexample: `witnessJob` is claimed at time 100 under a
handler that fails with "boom"; the failure path writes the row straight
back to 'pending' (`last_error_at = 100`, `scheduled_for` still 0), and
an untargeted claim succeeds at the very same time 100 — 0 seconds, not
at least 2 seconds, after the first failure of the first attempt. -/
theorem no_backoff_counterexample :
    (processNextJobModel boomHandlers [witnessJob] 100 "default" "i1" "w1").1 =
      none ∧
    (∃ j ∈ (processNextJobModel boomHandlers [witnessJob] 100 "default" "i1"
        "w1").2,
      j.id = 1 ∧ j.status = Status.pending ∧ j.attempts = 1 ∧
        j.lastErrorAt = some 100 ∧ j.scheduledFor = 0) ∧
    (acquireAnyJob
      (processNextJobModel boomHandlers [witnessJob] 100 "default" "i1" "w1").2
      100 "default" "i2" "w2").isSome = true := by
  decide

/-- C2 amended: a handler failure on a row with `attempts <
max_attempts` returns the row directly to 'pending' with `scheduled_for`
unchanged, so it may be re-claimed immediately; the 2^attempts backoff
applies only to rows in status 'failed' requeued by the leader tick. -/
theorem record_failure_requeues_immediately (db : JobsTable) (jid : Nat)
    (msg : String) (now : Nat) (i : Nat) (hi : i < db.length)
    (hid : (db.get ⟨i, hi⟩).id = jid)
    (hlt : (db.get ⟨i, hi⟩).attempts < (db.get ⟨i, hi⟩).maxAttempts) :
    (recordFailure db jid msg now)[i]? = some
      { db.get ⟨i, hi⟩ with
        status := Status.pending
        lastError := some msg
        lastErrorAt := some now
        instanceId := none
        workerId := none
        lockedAt := none } := by
  have hnot : ¬ db[i].maxAttempts ≤ db[i].attempts := by
    have h1 : db[i].attempts < db[i].maxAttempts := hlt
    omega
  have hid2 : db[i].id = jid := hid
  simp [recordFailure, List.getElem?_map, List.getElem?_eq_getElem hi, hid2,
    hnot]

theorem record_failure_requeues_immediately_witness :
    (recordFailure [claimedWitnessJob] 1 "boom" 150)[0]? = some
      { [claimedWitnessJob].get ⟨0, by norm_num⟩ with
        status := Status.pending
        lastError := some "boom"
        lastErrorAt := some 150
        instanceId := none
        workerId := none
        lockedAt := none } :=
  record_failure_requeues_immediately [claimedWitnessJob] 1 "boom" 150 0
    (by norm_num) (by decide) (by decide)

/-- C3 counterexample: with no registered workers, claiming the pending
row of kind "send_email" leaves it in status 'processing' with its
ownership stamped and nothing recorded on it (`last_error` stays NULL),
and `processNextJob` surfaces the error "no worker registered for job
type: send_email" to the worker loop. -/
theorem unknown_kind_counterexample :
    processNextJobModel (fun _ => none) [witnessJob] 100 "default" "i1" "w1" =
      (some "no worker registered for job type: send_email",
        [claimedWitnessJob]) ∧
    claimedWitnessJob.status = Status.processing ∧
    claimedWitnessJob.lastError = none := by
  exact ⟨by decide, rfl, rfl⟩

/-- C3 amended: when a claimed row's kind has no registered worker,
`processNextJob` returns the error "no worker registered for job type:
<kind>" to the worker loop (`startWorker` logs it and sleeps one second
before the next iteration); the row remains in status 'processing' and
no outcome is recorded on it. -/
theorem unknown_kind_leaves_row_processing (handlers : HandlerTable)
    (db : JobsTable) (now : Nat) (q iid wid : String) (row : ClaimedRow)
    (db1 : JobsTable) (h : acquireAnyJob db now q iid wid = some (row, db1))
    (hmiss : handlers row.kind = none) :
    processNextJobModel handlers db now q iid wid =
      (some ("no worker registered for job type: " ++ row.kind), db1) ∧
    ∀ j ∈ db1, j.id = row.id → j.status = Status.processing := by
  obtain ⟨r, hp, hrow, hdb1⟩ := acquireAnyJob_elim h
  constructor
  · unfold processNextJobModel
    rw [h]
    dsimp only
    rw [hmiss]
  · subst hdb1
    subst hrow
    intro j hj hidm
    unfold claimUpdate at hj
    obtain ⟨j0, hj0, rfl⟩ := List.mem_map.mp hj
    by_cases hc : j0.id = r.id
    · simp [hc]
    · simp [hc] at hidm

theorem unknown_kind_leaves_row_processing_witness :
    (processNextJobModel (fun _ => none) [witnessJob] 100 "default" "i1" "w1" =
      (some ("no worker registered for job type: " ++ "send_email"),
        [claimedWitnessJob]) ∧
    ∀ j ∈ [claimedWitnessJob], j.id = (1 : Nat) →
      j.status = Status.processing) :=
  unknown_kind_leaves_row_processing (fun _ => none) [witnessJob] 100 "default"
    "i1" "w1" ⟨1, "send_email", "\x7b\x7d"⟩ [claimedWitnessJob] (by decide) rfl

/-- C6 (with `GetWorker` modelled from the spec, since it is not under
`src/`): the handler instance populated from a claimed row's payload and
executed is a fresh zero-value shell per claim, so its field values are
determined solely by the stored payload and are independent of any
payload previously deserialized for another job of the same kind — two
arbitrary claim histories ending in the same claim produce the same
instance, namely the payload deserialized into the registered kind's
zero shell. -/
theorem handler_instance_fresh_per_claim (reg : String → Option RawWorker)
    (pre1 pre2 : List (String × HandlerFields)) (kind : String)
    (payload : HandlerFields) (w : RawWorker) (h : reg kind = some w) :
    (runClaims reg (pre1 ++ [(kind, payload)])).getLast? =
      some (some (unmarshalInto w.zeroShell payload)) ∧
    (runClaims reg (pre2 ++ [(kind, payload)])).getLast? =
      some (some (unmarshalInto w.zeroShell payload)) := by
  constructor <;>
  · unfold runClaims
    rw [List.map_append]
    simp [claimInstance, getWorker, h]

theorem handler_instance_fresh_per_claim_witness :
    (runClaims emailRegistry
        ([("send_email", [("to", "a@x")])] ++
          [("send_email", [("to", "b@y")])])).getLast? =
      some (some (unmarshalInto emailProto.zeroShell [("to", "b@y")])) ∧
    (runClaims emailRegistry
        ([] ++ [("send_email", [("to", "b@y")])])).getLast? =
      some (some (unmarshalInto emailProto.zeroShell [("to", "b@y")])) :=
  handler_instance_fresh_per_claim emailRegistry
    [("send_email", [("to", "a@x")])] [] "send_email" [("to", "b@y")]
    emailProto rfl

theorem insertRowsFrom_length (id0 now : Nat) (rows : List InsertValues) :
    (insertRowsFrom id0 now rows).length = rows.length := by
  induction rows generalizing id0 with
  | nil => rfl
  | cons v rest ih => simp [insertRowsFrom, ih]

theorem insertRowsFrom_getElem? (id0 now i : Nat) (rows : List InsertValues)
    (hi : i < rows.length) :
    (insertRowsFrom id0 now rows)[i]? =
      some (mkRow (id0 + i) now (rows.get ⟨i, hi⟩)) := by
  induction rows generalizing id0 i with
  | nil => simp at hi
  | cons v rest ih =>
    cases i with
    | zero => simp [insertRowsFrom]
    | succ n =>
      have hn : n < rest.length := by simpa using hi
      have := ih (id0 + 1) n hn
      simp only [insertRowsFrom, List.getElem?_cons_succ, this,
        Nat.add_assoc, Nat.add_comm 1 n]
      rfl

theorem buildBatchValues_ok_spec {jobs : List BatchJob}
    {rows : List InsertValues} (h : buildBatchValues jobs = Except.ok rows) :
    rows.length = jobs.length ∧
    ∀ i, (hi : i < jobs.length) → ∃ hr : i < rows.length,
      (jobs.get ⟨i, hi⟩).worker.jobName = some (rows.get ⟨i, hr⟩).kind ∧
      (jobs.get ⟨i, hi⟩).worker.marshal = Except.ok (rows.get ⟨i, hr⟩).payload ∧
      (rows.get ⟨i, hr⟩).queue = (jobs.get ⟨i, hi⟩).opts.queue ∧
      (rows.get ⟨i, hr⟩).priority = (jobs.get ⟨i, hi⟩).opts.priority ∧
      (rows.get ⟨i, hr⟩).scheduledFor = (jobs.get ⟨i, hi⟩).opts.runAt := by
  induction jobs generalizing rows with
  | nil =>
    simp only [buildBatchValues] at h
    injection h with h
    subst h
    exact ⟨rfl, fun i hi => absurd hi (by simp)⟩
  | cons job rest ih =>
    simp only [buildBatchValues] at h
    cases hname : job.worker.jobName with
    | none => rw [hname] at h; cases h
    | some name =>
      rw [hname] at h
      cases hm : job.worker.marshal with
      | error e => rw [hm] at h; cases h
      | ok payload =>
        rw [hm] at h
        cases hrest : buildBatchValues rest with
        | error e => rw [hrest] at h; cases h
        | ok rows0 =>
          rw [hrest] at h
          injection h with h
          subst h
          obtain ⟨hlen, hspec⟩ := ih hrest
          refine ⟨by simp [hlen], fun i hi => ?_⟩
          cases i with
          | zero =>
            refine ⟨by simp, ?_⟩
            simp [hname, hm]
          | succ n =>
            have hn : n < rest.length := by simpa using hi
            obtain ⟨hr, hs⟩ := hspec n hn
            exact ⟨by simpa using hr, hs⟩

theorem buildBatchValues_error_of_bad {jobs : List BatchJob}
    (hbad : ∃ j ∈ jobs, j.worker.jobName = none ∨
      ∃ e, j.worker.marshal = Except.error e) :
    ∃ e, buildBatchValues jobs = Except.error e := by
  induction jobs with
  | nil => simp at hbad
  | cons job rest ih =>
    obtain ⟨j, hj, hb⟩ := hbad
    rcases List.mem_cons.mp hj with rfl | hj
    · cases hname : j.worker.jobName with
      | none =>
        refine ⟨"worker must implement JobName() string", ?_⟩
        simp only [buildBatchValues, hname]
      | some name =>
        rcases hb with hb | ⟨e, he⟩
        · rw [hname] at hb; cases hb
        · refine ⟨"failed to serialize job args: " ++ e, ?_⟩
          simp only [buildBatchValues, hname, he]
    · cases hname : job.worker.jobName with
      | none =>
        refine ⟨"worker must implement JobName() string", ?_⟩
        simp only [buildBatchValues, hname]
      | some name =>
        cases hm : job.worker.marshal with
        | error e =>
          refine ⟨"failed to serialize job args: " ++ e, ?_⟩
          simp only [buildBatchValues, hname, hm]
        | ok payload =>
          obtain ⟨e, he⟩ := ih ⟨j, hj, hb⟩
          exact ⟨e, by simp only [buildBatchValues, hname, hm, he]⟩

/-- C7: for every batch enqueue of n items, either all n rows are
inserted or none: the insertion is a single SQL statement with one
VALUES tuple per item, and any per-item validation or serialization
failure causes the operation to return an error before any insert
statement is issued, so a proper non-empty subset of the batch is never
committed. -/
theorem batch_enqueue_all_or_nothing (txValid : Bool) (db : JobsTable)
    (jobs : List BatchJob) (firstId now : Nat) :
    (∀ db', addJobsWithTx txValid db jobs firstId now = Except.ok db' →
      db'.length = db.length + jobs.length ∧ db'.take db.length = db ∧
      ∀ i, (hi : i < jobs.length) → ∃ jrow,
        db'[db.length + i]? = some jrow ∧
        jrow.status = Status.pending ∧ jrow.attempts = 0 ∧
        jrow.maxAttempts = 3 ∧
        (jobs.get ⟨i, hi⟩).worker.jobName = some jrow.kind ∧
        (jobs.get ⟨i, hi⟩).worker.marshal = Except.ok jrow.payload ∧
        jrow.queue = (jobs.get ⟨i, hi⟩).opts.queue ∧
        jrow.priority = (jobs.get ⟨i, hi⟩).opts.priority ∧
        jrow.scheduledFor = (jobs.get ⟨i, hi⟩).opts.runAt) ∧
    (∀ j ∈ jobs, (j.worker.jobName = none ∨
        ∃ e, j.worker.marshal = Except.error e) →
      ∃ e, addJobsWithTx txValid db jobs firstId now = Except.error e) := by
  constructor
  · intro db' hok
    unfold addJobsWithTx at hok
    by_cases hz : jobs.length = 0
    · rw [if_pos hz] at hok
      injection hok with hok
      subst hok
      have hnil : jobs = [] := List.length_eq_zero.mp hz
      subst hnil
      exact ⟨by simp, by simp, fun i hi => absurd hi (by simp)⟩
    · rw [if_neg hz] at hok
      cases htx : txValid with
      | false => rw [htx] at hok; cases hok
      | true =>
        rw [htx] at hok
        simp only [Bool.not_true, Bool.false_eq_true, if_false] at hok
        cases hb : buildBatchValues jobs with
        | error e => rw [hb] at hok; cases hok
        | ok rows =>
          rw [hb] at hok
          injection hok with hok
          subst hok
          obtain ⟨hlen, hspec⟩ := buildBatchValues_ok_spec hb
          refine ⟨?_, ?_, fun i hi => ?_⟩
          · simp [insertBatchRows, insertRowsFrom_length, hlen]
          · simp [insertBatchRows]
          · have hr : i < rows.length := by omega
            obtain ⟨hr2, h1, h2, h3, h4, h5⟩ := hspec i hi
            refine ⟨mkRow (firstId + i) now (rows.get ⟨i, hr⟩), ?_, rfl, rfl,
              rfl, ?_, ?_, ?_, ?_, ?_⟩
            · rw [insertBatchRows, List.getElem?_append_right (by omega)]
              rw [show db.length + i - db.length = i by omega]
              exact insertRowsFrom_getElem? firstId now i rows hr
            · exact h1
            · exact h2
            · exact h3
            · exact h4
            · exact h5
  · intro j hj hb
    have hz : jobs.length ≠ 0 := by
      intro h0
      rw [List.length_eq_zero.mp h0] at hj
      simp at hj
    unfold addJobsWithTx
    rw [if_neg hz]
    cases txValid with
    | false => exact ⟨_, rfl⟩
    | true =>
      simp only [Bool.not_true, Bool.false_eq_true, if_false]
      obtain ⟨e, he⟩ := buildBatchValues_error_of_bad ⟨j, hj, hb⟩
      exact ⟨e, by rw [he]⟩

theorem batch_enqueue_all_or_nothing_witness :
    ∃ e, addJobsWithTx true [] badBatch 10 5 = Except.error e :=
  (batch_enqueue_all_or_nothing true [] badBatch 10 5).2
    { worker := { jobName := none, marshal := Except.ok "\x7b\x7d" }
      opts := { queue := "default", priority := 1, runAt := 0 } }
    (List.mem_cons_self _ _) (Or.inl rfl)

/-- C9 counterexample: `Stop` called with an already-expired context
while a worker is still busy returns the timeout error, but the cleanup
UPDATE runs under the expired context, so its query fails and the row
this instance owns stays 'processing' with its ownership fields intact —
it is not updated to 'pending' or 'failed'. -/
theorem stop_expired_ctx_counterexample :
    stopModel false false true [stuckProcessingJob] "dead-instance" =
      StopResult.returned
        (some "shutdown timed out: context deadline exceeded")
        [stuckProcessingJob] true ∧
    stuckProcessingJob.status = Status.processing ∧
    stuckProcessingJob.instanceId = some "dead-instance" :=
  ⟨rfl, rfl, rfl⟩

/-- C9 amended: `Stop` with a context whose deadline has already passed
(while workers are still running) returns a timeout error promptly and
attempts the instance cleanup best-effort, but the cleanup query
executes under the expired context and fails, so every row with this
instance's id is left unchanged — still 'processing' with its ownership
fields set. -/
theorem stop_expired_ctx_no_cleanup (db : JobsTable) (iid : String) :
    stopModel false false true db iid =
      StopResult.returned
        (some "shutdown timed out: context deadline exceeded") db true :=
  rfl

/-- C10: `Stop` is not idempotent: a first invocation (with the
`shutdown` channel still open) returns — leaving the channel closed —
and a second invocation panics, because `Stop` unconditionally closes
the shared shutdown channel and closing an already-closed channel is a
Go runtime panic. -/
theorem stop_second_call_panics (workersDrained ctxExpired : Bool)
    (db : JobsTable) (iid : String) :
    (∃ err db2, stopModel false workersDrained ctxExpired db iid =
      StopResult.returned err db2 true) ∧
    stopModel true workersDrained ctxExpired db iid =
      StopResult.panicked "close of closed channel" := by
  refine ⟨?_, rfl⟩
  cases workersDrained <;> cases ctxExpired <;> exact ⟨_, _, rfl⟩

end Swig
